import Mathlib

/-!
Verification of the sulphite_v1 tutoring assistant.

Shallow embedding of the session/memory storage layer (database.py), the
session bookkeeping (services.py, state_manager.py), the classifier result
validation (classification.py), the semantic-memory bookkeeping and query-type
gate (chat_manager.py), and the CLI command dispatch (main.py).

Modelling conventions:
- The SQLite tables are lists of rows.  `created_at` timestamp columns are
  omitted: the code never reads them (ordering is always by the AUTOINCREMENT
  `id` column).  AUTOINCREMENT is modelled by monotone counters that are never
  reused.
- `sqlite3` leaves foreign-key enforcement off unless `PRAGMA foreign_keys=ON`
  is issued, which the code never does; therefore the declared FOREIGN KEY on
  `memory.session_id` is not enforced and `add_message` is an unconditional
  insert.
- Fallible operations return `Except`; a raised exception is an `Except.error`.
- External AI calls are parameters of type `Except`: `.error` means the call
  raised, `.ok` carries the returned content (for the classifier, the outcome
  of JSON-decoding that content).
-/

/-- JSON values, as produced by `json.loads` on the classifier response. -/
inductive Json where
  | null
  | bool (b : Bool)
  | num (n : Int)
  | str (s : String)
  | arr (elems : List Json)
  | obj (fields : List (String × Json))

/-- A row of the `sessions` table (database.py:90-96); the unread
`created_at` column is omitted. -/
structure SessionRow where
  id : Nat
  name : String
deriving DecidableEq, Repr

/-- A row of the `memory` table (database.py:99-108); the unread
`created_at` column is omitted. -/
structure MemoryRow where
  id : Nat
  session_id : Nat
  user_input : String
  model_response : String
deriving DecidableEq, Repr

/-- The persistent store managed by `Database`.  `permanent_note` is the
single-row permanent-notes table the spec describes (its accessors are
missing from database.py and modelled from the spec below). -/
structure DBState where
  sessions : List SessionRow
  memory : List MemoryRow
  permanent_note : Option String
  next_session_id : Nat
  next_memory_id : Nat
deriving DecidableEq, Repr

/-- Fresh database: empty tables, AUTOINCREMENT counters at 1. -/
def initState : DBState :=
  { sessions := [], memory := [], permanent_note := none,
    next_session_id := 1, next_memory_id := 1 }

namespace Database

/-- `Database.create_session` (database.py:122-157): `INSERT INTO sessions
(name) VALUES (?)`.  The UNIQUE constraint on `name` makes the insert raise
`IntegrityError` when the name already exists; otherwise the fresh
AUTOINCREMENT id is returned. -/
def create_session (name : String) (st : DBState) : Except Unit (Nat × DBState) :=
  if st.sessions.any (fun s => s.name == name) then
    Except.error ()
  else
    Except.ok (st.next_session_id,
      { st with
          sessions := st.sessions ++ [{ id := st.next_session_id, name := name }],
          next_session_id := st.next_session_id + 1 })

/-- `Database.get_session` (database.py:159-191): `SELECT id FROM sessions
WHERE name = ?`, then `row[0] if row else None`. -/
def get_session (name : String) (st : DBState) : Option Nat :=
  match st.sessions.find? (fun s => s.name == name) with
  | some row => some row.id
  | none => none

/-- `Database.add_message` (database.py:193-234): `INSERT INTO memory
(session_id, user_input, model_response) VALUES (?, ?, ?)`.  The insert is
unconditional: the declared FOREIGN KEY is not enforced because the code
never issues `PRAGMA foreign_keys=ON`. -/
def add_message (session_id : Nat) (user_input model_response : String)
    (st : DBState) : DBState :=
  { st with
      memory := st.memory ++
        [{ id := st.next_memory_id, session_id := session_id,
           user_input := user_input, model_response := model_response }],
      next_memory_id := st.next_memory_id + 1 }

/-- Insertion step of `ORDER BY id DESC`: place `x` before the first row
whose id is not above `x.id`. -/
def insertById (x : MemoryRow) : List MemoryRow → List MemoryRow
  | [] => [x]
  | y :: ys => if y.id ≤ x.id then x :: y :: ys else y :: insertById x ys

/-- `ORDER BY id DESC` on a bag of rows. -/
def sortByIdDesc (l : List MemoryRow) : List MemoryRow :=
  l.foldr insertById []

/-- `Database.get_memory` (database.py:236-283): `SELECT user_input,
model_response FROM memory WHERE session_id = ? ORDER BY id DESC LIMIT ?`,
then `fetchall()[::-1]` to restore chronological order. -/
def get_memory (session_id : Nat) (limit : Nat) (st : DBState) :
    List (String × String) :=
  (((sortByIdDesc (st.memory.filter (fun r => r.session_id == session_id))).take
      limit).map (fun r => (r.user_input, r.model_response))).reverse

/-- `Database.clear_memory` (database.py:285-312): `DELETE FROM memory WHERE
session_id = ?`. -/
def clear_memory (session_id : Nat) (st : DBState) : DBState :=
  { st with memory := st.memory.filter (fun r => !(r.session_id == session_id)) }

/-- `Database.delete_session` (database.py:314-354): delete the session's
memory rows, then the session row itself. -/
def delete_session (session_id : Nat) (st : DBState) : DBState :=
  { st with
      memory := st.memory.filter (fun r => !(r.session_id == session_id)),
      sessions := st.sessions.filter (fun s => !(s.id == session_id)) }

/-- Modelled from the spec: `Database.update_permanent_memory` is called by
`StateManager` (state_manager.py:40,48) but absent from database.py.  The
spec says the permanent note is "a single free-text field per installation
... overwritten wholesale on update, never appended". -/
def update_permanent_memory (note : String) (st : DBState) : DBState :=
  { st with permanent_note := some note }

/-- Modelled from the spec: `Database.get_permanent_memory` is called by
`StateManager` (state_manager.py:35) but absent from database.py.  Reads the
single permanent-note value, `none` when it was never written. -/
def get_permanent_memory (st : DBState) : Option String :=
  st.permanent_note

/-- Error path of `Database.add_message` (database.py:232-234): a storage
failure is logged and re-raised to the caller unchanged. -/
def add_message_result (execResult : Except String Unit) : Except String Unit :=
  match execResult with
  | Except.ok _ => Except.ok ()
  | Except.error e => Except.error e

end Database

/-- The database mutations offered by `Database`. -/
inductive DBOp where
  | createSession (name : String)
  | addMessage (session_id : Nat) (user_input model_response : String)
  | clearMemory (session_id : Nat)
  | deleteSession (session_id : Nat)

/-- Effect of one operation on the store.  A failed `create_session`
(IntegrityError) leaves the store unchanged. -/
def applyOp (op : DBOp) (st : DBState) : DBState :=
  match op with
  | DBOp.createSession name =>
    match Database.create_session name st with
    | Except.ok (_, st') => st'
    | Except.error _ => st
  | DBOp.addMessage sid u r => Database.add_message sid u r st
  | DBOp.clearMemory sid => Database.clear_memory sid st
  | DBOp.deleteSession sid => Database.delete_session sid st

/-- Run a sequence of operations from a given store. -/
def applyOps (ops : List DBOp) (st : DBState) : DBState :=
  ops.foldl (fun s op => applyOp op s) st

/-- Stores reachable from a fresh database by any operation sequence. -/
def reachable (st : DBState) : Prop :=
  ∃ ops : List DBOp, applyOps ops initState = st

/-- Structural well-formedness that every reachable store enjoys: row ids
strictly increase in insertion order, stay below the AUTOINCREMENT counters,
session ids start at 1 and session names are unique. -/
structure DBState.WF (st : DBState) : Prop where
  mem_sorted : st.memory.Pairwise (fun a b => a.id < b.id)
  mem_lt_next : ∀ r ∈ st.memory, r.id < st.next_memory_id
  sess_sorted : st.sessions.Pairwise (fun a b => a.id < b.id)
  sess_lt_next : ∀ s ∈ st.sessions, s.id < st.next_session_id
  sess_pos : ∀ s ∈ st.sessions, 1 ≤ s.id
  names_distinct : st.sessions.Pairwise (fun a b => a.name ≠ b.name)
  next_pos : 1 ≤ st.next_session_id

/-- The turns of one session, in insertion order, projected to the selected
columns. -/
def sessionRows (session_id : Nat) (st : DBState) : List (String × String) :=
  (st.memory.filter (fun r => r.session_id == session_id)).map
    (fun r => (r.user_input, r.model_response))

theorem initState_wf : initState.WF := by
  constructor <;> simp [initState]

theorem insertById_of_lt (x : MemoryRow) (m : List MemoryRow)
    (h : ∀ y ∈ m, x.id < y.id) : Database.insertById x m = m ++ [x] := by
  induction m with
  | nil => rfl
  | cons y ys ih =>
    have hy : x.id < y.id := h y (List.mem_cons_self y ys)
    simp only [Database.insertById, if_neg (Nat.not_le.mpr hy), List.cons_append,
      List.cons.injEq, true_and]
    exact ih (fun z hz => h z (List.mem_cons_of_mem y hz))

theorem sortByIdDesc_eq_reverse (l : List MemoryRow)
    (h : l.Pairwise (fun a b => a.id < b.id)) :
    Database.sortByIdDesc l = l.reverse := by
  induction l with
  | nil => rfl
  | cons a t ih =>
    have ha : ∀ b ∈ t, a.id < b.id := (List.pairwise_cons.mp h).1
    have ht : t.Pairwise (fun a b => a.id < b.id) := (List.pairwise_cons.mp h).2
    show Database.insertById a (Database.sortByIdDesc t) = (a :: t).reverse
    rw [ih ht, insertById_of_lt a t.reverse (fun y hy => ha y (List.mem_reverse.mp hy)),
      List.reverse_cons]

theorem wf_applyOp (op : DBOp) (st : DBState) (h : st.WF) : (applyOp op st).WF := by
  cases op with
  | createSession name =>
    simp only [applyOp, Database.create_session]
    by_cases hany : st.sessions.any (fun s => s.name == name) = true
    · simp [hany]; exact h
    · simp only [hany, Bool.false_eq_true, if_false]
      have hnoname : ∀ s ∈ st.sessions, s.name ≠ name := by
        intro s hs hname
        exact hany (List.any_eq_true.mpr ⟨s, hs, by simp [hname]⟩)
      constructor
      · exact h.mem_sorted
      · exact h.mem_lt_next
      · rw [List.pairwise_append]
        refine ⟨h.sess_sorted, List.pairwise_singleton _ _, ?_⟩
        intro s hs b hb
        simp only [List.mem_singleton] at hb
        subst hb
        exact h.sess_lt_next s hs
      · intro s hs
        rcases List.mem_append.mp hs with hs | hs
        · exact Nat.lt_succ_of_lt (h.sess_lt_next s hs)
        · simp only [List.mem_singleton] at hs
          subst hs
          exact Nat.lt_succ_self _
      · intro s hs
        rcases List.mem_append.mp hs with hs | hs
        · exact h.sess_pos s hs
        · simp only [List.mem_singleton] at hs
          subst hs
          exact h.next_pos
      · rw [List.pairwise_append]
        refine ⟨h.names_distinct, List.pairwise_singleton _ _, ?_⟩
        intro s hs b hb
        simp only [List.mem_singleton] at hb
        subst hb
        exact hnoname s hs
      · exact Nat.le_succ_of_le h.next_pos
  | addMessage sid u r =>
    simp only [applyOp, Database.add_message]
    constructor
    · rw [List.pairwise_append]
      refine ⟨h.mem_sorted, List.pairwise_singleton _ _, ?_⟩
      intro a ha b hb
      simp only [List.mem_singleton] at hb
      subst hb
      exact h.mem_lt_next a ha
    · intro x hx
      rcases List.mem_append.mp hx with hx | hx
      · exact Nat.lt_succ_of_lt (h.mem_lt_next x hx)
      · simp only [List.mem_singleton] at hx
        subst hx
        exact Nat.lt_succ_self _
    · exact h.sess_sorted
    · exact h.sess_lt_next
    · exact h.sess_pos
    · exact h.names_distinct
    · exact h.next_pos
  | clearMemory sid =>
    simp only [applyOp, Database.clear_memory]
    constructor
    · exact h.mem_sorted.sublist (List.filter_sublist _)
    · intro r hr
      exact h.mem_lt_next r (List.mem_of_mem_filter hr)
    · exact h.sess_sorted
    · exact h.sess_lt_next
    · exact h.sess_pos
    · exact h.names_distinct
    · exact h.next_pos
  | deleteSession sid =>
    simp only [applyOp, Database.delete_session]
    constructor
    · exact h.mem_sorted.sublist (List.filter_sublist _)
    · intro r hr
      exact h.mem_lt_next r (List.mem_of_mem_filter hr)
    · exact h.sess_sorted.sublist (List.filter_sublist _)
    · intro s hs
      exact h.sess_lt_next s (List.mem_of_mem_filter hs)
    · intro s hs
      exact h.sess_pos s (List.mem_of_mem_filter hs)
    · exact h.names_distinct.sublist (List.filter_sublist _)
    · exact h.next_pos

theorem wf_applyOps (ops : List DBOp) (st : DBState) (h : st.WF) :
    (applyOps ops st).WF := by
  induction ops generalizing st with
  | nil => exact h
  | cons op ops ih => exact ih (applyOp op st) (wf_applyOp op st h)

theorem reachable_wf (st : DBState) (h : reachable st) : st.WF := by
  obtain ⟨ops, rfl⟩ := h
  exact wf_applyOps ops initState initState_wf

theorem get_memory_eq_window (session_id limit : Nat) (st : DBState) (h : st.WF) :
    Database.get_memory session_id limit st =
      (((st.memory.filter (fun r => r.session_id == session_id)).reverse.take
          limit).reverse).map (fun r => (r.user_input, r.model_response)) := by
  have hsorted : (st.memory.filter (fun r => r.session_id == session_id)).Pairwise
      (fun a b => a.id < b.id) :=
    h.mem_sorted.sublist (List.filter_sublist _)
  simp only [Database.get_memory, sortByIdDesc_eq_reverse _ hsorted, List.map_reverse]

/-- The state held by `StateManager` (state_manager.py:7-14) together with the
database it owns. -/
structure StateManagerState where
  db : DBState
  session_id : Nat
  language_mode : String
  permanent_memory : String
  current_prompt : String
deriving DecidableEq, Repr

namespace StateManager

/-- `StateManager.update_permanent_memory` (state_manager.py:46-48): cache the
new note and write it through to the database. -/
def update_permanent_memory (new_notes : String) (sm : StateManagerState) :
    StateManagerState :=
  { sm with
      permanent_memory := new_notes,
      db := Database.update_permanent_memory new_notes sm.db }

/-- `StateManager.get_permanent_memory` (state_manager.py:43-44). -/
def get_permanent_memory (sm : StateManagerState) : String :=
  sm.permanent_memory

end StateManager

namespace ChatService

/-- `ChatService.start_new_session` (services.py:98-137): look the name up; a
falsy result (`None`, or id 0, which AUTOINCREMENT never produces) leads to
`create_session`, whose `IntegrityError` would be re-raised. -/
def start_new_session (name : String) (st : DBState) : Except Unit (Nat × DBState) :=
  match Database.get_session name st with
  | some sid =>
    if sid == 0 then Database.create_session name st else Except.ok (sid, st)
  | none => Database.create_session name st

end ChatService

namespace Classifier

/-- Field lookup in a decoded JSON object.  `json.loads` keeps the last
occurrence of a duplicated key, so the scan runs from the right. -/
def lookupLast (fields : List (String × Json)) (key : String) : Option Json :=
  match fields.reverse.find? (fun kv => kv.1 == key) with
  | some kv => some kv.2
  | none => none

/-- The classification field of a parsed result, when it is a string. -/
def classificationField (fields : List (String × Json)) : Option String :=
  match lookupLast fields "classification" with
  | some (Json.str s) => some s
  | _ => none

/-- The four category strings accepted by `_parse_ai_response`
(classification.py:233). -/
def valid_categories : List String :=
  ["general", "practical", "theoretical", "irrelevant"]

/-- `Classifier._parse_ai_response` (classification.py:176-263) after the
markdown stripping: the argument is the outcome of `json.loads` (`.error` for
a decode failure).  A non-dict value, a missing classification field
(`.get` defaults to `''`), a non-string field, or a string outside the four
categories all yield the empty dict; otherwise the parsed dict is returned. -/
def parse_ai_response (decoded : Except Unit Json) : List (String × Json) :=
  match decoded with
  | Except.error _ => []
  | Except.ok (Json.obj fields) =>
    match lookupLast fields "classification" with
    | some (Json.str s) => if valid_categories.contains s then fields else []
    | _ => []
  | Except.ok _ => []

/-- `Classifier.classify` (classification.py:96-174): invoke the external
model and parse; any exception from the call is caught and yields the empty
dict (classification.py:167-174).  The argument is the invoke outcome, whose
`.ok` payload is the JSON-decode outcome of the returned content. -/
def classify (invokeResult : Except Unit (Except Unit Json)) :
    List (String × Json) :=
  match invokeResult with
  | Except.error _ => []
  | Except.ok decoded => parse_ai_response decoded

end Classifier

namespace ChatService

/-- The fallback literal of `ChatService._classify_query` (services.py:249). -/
def default_classification : List (String × Json) :=
  [("classification", Json.str "general"),
   ("main_topic", Json.null), ("sub_topic", Json.null)]

/-- `ChatService._classify_query` (services.py:215-251): forwards to
`Classifier.classify`.  Its own except-branch (the `general` default) fires
only if `classify` itself raises, which a failing external call never causes
because `classify` catches every exception; so the result is exactly
`classify`'s result. -/
def classify_query (invokeResult : Except Unit (Except Unit Json)) :
    List (String × Json) :=
  Classifier.classify invokeResult

/-- `ChatService._select_system_prompt` (services.py:279-318): read the
classification with `.get('classification', 'general')` and map it through
the fixed prompt dictionary, defaulting to `default_system_prompt`. -/
def select_system_prompt_key (result : List (String × Json)) : String :=
  match (Classifier.lookupLast result "classification").getD (Json.str "general") with
  | Json.str "practical" => "practical_learning_prompt"
  | Json.str "theoretical" => "theoretical_learning_prompt"
  | Json.str "general" => "general_chitchat_prompt"
  | Json.str "irrelevant" => "irrelevant_response_prompt"
  | _ => "default_system_prompt"

end ChatService

namespace ChatManager

/-- `ChatManager.initialize_session_memory` (chat_manager.py:36-49): fetch the
session history with `limit=100` and append two text fragments per turn to
the in-memory text list (the embedding index receives exactly these texts). -/
def initialize_session_memory (session_id : Nat) (st : DBState) : List String :=
  (Database.get_memory session_id 100 st).foldl
    (fun texts p =>
      texts ++ ["User asked: " ++ p.1, "AI answered: " ++ p.2]) []

/-- `ChatManager._detect_language` (chat_manager.py:66-72): any exception from
the external call yields "other"; otherwise the content is stripped and
lowercased. -/
def detect_language (invokeResult : Except Unit String) : String :=
  match invokeResult with
  | Except.error _ => "other"
  | Except.ok content => content.trim.toLower

/-- `ChatManager._get_query_type` (chat_manager.py:74-82): fetch the last
exchange (`limit=1`); with no history, or when the last assistant response
contains no question mark (Python `"?" in s`, a membership test over the
characters here), return "new_question" without consulting the model.
Otherwise the model is invoked (second component `true`) and its stripped,
lowercased content returned. -/
def get_query_type (session_id : Nat) (invokeContent : String) (st : DBState) :
    String × Bool :=
  match Database.get_memory session_id 1 st with
  | [] => ("new_question", false)
  | (_, r) :: _ =>
    if r.data.contains '?' then (invokeContent.trim.toLower, true)
    else ("new_question", false)

end ChatManager

namespace SulphiteApp

/-- Python `str.split()` with no separator: split on whitespace runs,
dropping empty pieces. -/
def pySplit (s : String) : List String :=
  (s.split (fun c => c.isWhitespace)).filter (fun t => t ≠ "")

/-- `SulphiteApp._handle_new_session_command` (main.py:228-260): the try
block reports success, the except block reports the failure; either way the
handler falls through to `return True`. -/
def handle_new_session_command (startResult : Except String Nat) : Bool × String :=
  (true,
    match startResult with
    | Except.ok sid => "Started new session (ID: " ++ toString sid ++ ")"
    | Except.error e => "Failed to start new session: " ++ e)

/-- `SulphiteApp._handle_clear_command` (main.py:262-283): same shape; the
storage error is caught, reported, and the handler returns True. -/
def handle_clear_command (clearResult : Except String Unit) : Bool × String :=
  (true,
    match clearResult with
    | Except.ok _ => "Current session memory cleared."
    | Except.error e => "Failed to clear session memory: " ++ e)

/-- `SulphiteApp._process_ai_interaction` (main.py:367-421): both the success
path and the except path return True. -/
def process_ai_interaction (aiResult : Except String String) : Bool × String :=
  match aiResult with
  | Except.ok resp => (true, "Assistant: " ++ resp)
  | Except.error e => (true, "An error occurred while processing your message: " ++ e)

/-- `SulphiteApp.process_command` (main.py:148-201): dispatch on the first
whitespace-separated word, lowercased.  Every handler returns True except
`/quit`; the catch-all except block also returns True. -/
def process_command (input : String) (startResult : Except String Nat)
    (clearResult : Except String Unit) (aiResult : Except String String) : Bool :=
  if input.startsWith "/" then
    let command := ((pySplit input).headD "").toLower
    let arg_str := String.intercalate " " (pySplit input).tail
    if command = "/quit" then false
    else if command = "/help" then true
    else if command = "/new" then (handle_new_session_command startResult).1
    else if command = "/clear" then (handle_clear_command clearResult).1
    else if command = "/show_info" then true
    else if command = "/chat" then
      if arg_str = "" then true else (process_ai_interaction aiResult).1
    else true
  else (process_ai_interaction aiResult).1

end SulphiteApp

/-- The spec's referential invariant: every stored turn names a session that
is present in the sessions table. -/
def memRefsOk (st : DBState) : Prop :=
  ∀ r ∈ st.memory, ∃ s ∈ st.sessions, s.id = r.session_id

/-- The state the running application holds: the store plus the active
session id (`ChatService.session_id`, None before any session starts). -/
structure AppState where
  db : DBState
  session_id : Option Nat
deriving DecidableEq, Repr

/-- The store-touching commands the CLI can issue: `/new` (also the startup
default session), a chat turn (`/chat` or a direct message, ending in
`add_message`), and `/clear`.  `delete_session` has no command. -/
inductive AppOp where
  | newSession (name : String)
  | chat (user_input model_response : String)
  | clearMem

/-- Effect of one CLI command on the application state.  A chat or clear
without an active session raises and changes nothing (services.py:168-169,
415-416); a failed `/new` is reported and changes nothing. -/
def applyAppOp (a : AppState) (op : AppOp) : AppState :=
  match op with
  | AppOp.newSession name =>
    match ChatService.start_new_session name a.db with
    | Except.ok (sid, db') => { db := db', session_id := some sid }
    | Except.error _ => a
  | AppOp.chat u r =>
    match a.session_id with
    | none => a
    | some sid => { a with db := Database.add_message sid u r a.db }
  | AppOp.clearMem =>
    match a.session_id with
    | none => a
    | some sid => { a with db := Database.clear_memory sid a.db }

/-- Application state at startup, before the default session is created. -/
def initApp : AppState := { db := initState, session_id := none }

/-- Run a sequence of CLI commands. -/
def applyAppOps (ops : List AppOp) (a : AppState) : AppState :=
  ops.foldl applyAppOp a

/-- Application states reachable from startup. -/
def appReachable (a : AppState) : Prop :=
  ∃ ops : List AppOp, applyAppOps ops initApp = a

/-- C1: for every reachable store, every session and every limit k,
`Database.get_memory` returns exactly the final segment (at most k elements)
of that session's turns in insertion order: the k most recently inserted
turns, chronologically ordered, whatever interleaving of operations produced
the store. -/
theorem get_memory_sliding_window (st : DBState) (h : reachable st)
    (session_id limit : Nat) :
    Database.get_memory session_id limit st =
      ((sessionRows session_id st).reverse.take limit).reverse ∧
    (Database.get_memory session_id limit st).length ≤ limit := by
  have hwf := reachable_wf st h
  rw [get_memory_eq_window session_id limit st hwf]
  constructor
  · simp [sessionRows, List.map_reverse, List.map_take]
  · simp only [List.length_map, List.length_reverse, List.length_take]
    exact Nat.min_le_left _ _

/-- Operation sequence for the `get_memory` witness: two interleaved
sessions. -/
def c1Ops : List DBOp :=
  [DBOp.createSession "alpha", DBOp.createSession "beta",
   DBOp.addMessage 1 "q1" "r1", DBOp.addMessage 2 "x1" "y1",
   DBOp.addMessage 1 "q2" "r2", DBOp.addMessage 1 "q3" "r3"]

theorem get_memory_sliding_window_witness :
    reachable (applyOps c1Ops initState) ∧
    (Database.get_memory 1 2 (applyOps c1Ops initState) =
        ((sessionRows 1 (applyOps c1Ops initState)).reverse.take 2).reverse ∧
      (Database.get_memory 1 2 (applyOps c1Ops initState)).length ≤ 2) :=
  ⟨⟨c1Ops, rfl⟩, get_memory_sliding_window _ ⟨c1Ops, rfl⟩ 1 2⟩

/-- C3: `clear_memory` erases exactly the given session's turns: the
sessions table is untouched (the session's own row included) and the turns
of every other session are unchanged. -/
theorem clear_memory_frame (session_id : Nat) (st : DBState) :
    (Database.clear_memory session_id st).sessions = st.sessions ∧
    (Database.clear_memory session_id st).memory.filter
      (fun r => r.session_id == session_id) = [] ∧
    ∀ other : Nat, other ≠ session_id →
      (Database.clear_memory session_id st).memory.filter
          (fun r => r.session_id == other) =
        st.memory.filter (fun r => r.session_id == other) := by
  refine ⟨rfl, ?_, ?_⟩
  · simp only [Database.clear_memory, List.filter_filter]
    rw [List.filter_eq_nil_iff]
    intro r _
    simp
  · intro other hother
    simp only [Database.clear_memory, List.filter_filter]
    apply List.filter_congr
    intro r _
    by_cases hr : r.session_id = other
    · simp [hr, hother]
    · simp [hr]

/-- Concrete store with two sessions' turns for the `clear_memory` witness. -/
def c3State : DBState :=
  { sessions := [⟨1, "alpha"⟩, ⟨2, "beta"⟩],
    memory := [⟨1, 1, "q1", "r1"⟩, ⟨2, 2, "x1", "y1"⟩, ⟨3, 1, "q2", "r2"⟩],
    permanent_note := none, next_session_id := 3, next_memory_id := 4 }

theorem clear_memory_frame_witness :
    (2 : Nat) ≠ 1 ∧
    (Database.clear_memory 1 c3State).memory.filter
        (fun r => r.session_id == 2) =
      c3State.memory.filter (fun r => r.session_id == 2) :=
  ⟨by decide, (clear_memory_frame 1 c3State).2.2 2 (by decide)⟩

/-- C4: writing permanent notes A then B leaves a state identical to writing
B alone, so no history of A survives anywhere; reading afterwards (cached or
from the store) yields exactly B. -/
theorem permanent_note_overwrite (a b : String) (sm : StateManagerState) :
    StateManager.update_permanent_memory b
        (StateManager.update_permanent_memory a sm) =
      StateManager.update_permanent_memory b sm ∧
    StateManager.get_permanent_memory
        (StateManager.update_permanent_memory b sm) = b ∧
    Database.get_permanent_memory
        (StateManager.update_permanent_memory b sm).db = some b :=
  ⟨rfl, rfl, rfl⟩

theorem find?_append_of_none {α : Type} (l₁ l₂ : List α) (p : α → Bool)
    (h : l₁.find? p = none) : (l₁ ++ l₂).find? p = l₂.find? p := by
  induction l₁ with
  | nil => rfl
  | cons a t ih =>
    rw [List.find?_cons] at h
    cases hpa : p a with
    | true => rw [hpa] at h; cases h
    | false =>
      rw [hpa] at h
      rw [List.cons_append, List.find?_cons, hpa]
      exact ih h

theorem get_session_some_mem (name : String) (st : DBState) (sid : Nat)
    (h : Database.get_session name st = some sid) :
    ∃ s ∈ st.sessions, s.id = sid ∧ s.name = name := by
  unfold Database.get_session at h
  cases hf : st.sessions.find? (fun s => s.name == name) with
  | none => rw [hf] at h; cases h
  | some row =>
    rw [hf] at h
    refine ⟨row, List.mem_of_find?_eq_some hf, ?_, ?_⟩
    · cases h; rfl
    · have := List.find?_some hf
      simpa using this

theorem get_session_none_no_match (name : String) (st : DBState)
    (h : Database.get_session name st = none) :
    ∀ s ∈ st.sessions, (s.name == name) = false := by
  unfold Database.get_session at h
  cases hf : st.sessions.find? (fun s => s.name == name) with
  | none =>
    intro s hs
    have := List.find?_eq_none.mp hf s hs
    simpa using this
  | some row => rw [hf] at h; cases h

theorem filter_name_singleton (name : String) (l : List SessionRow)
    (hnd : l.Pairwise (fun a b => a.name ≠ b.name)) (s : SessionRow)
    (hs : s ∈ l) (hname : s.name = name) :
    l.filter (fun t => t.name == name) = [s] := by
  induction l with
  | nil => cases hs
  | cons a t ih =>
    obtain ⟨ha, ht⟩ := List.pairwise_cons.mp hnd
    rcases List.mem_cons.mp hs with hs | hs
    · subst hs
      rw [List.filter_cons_of_pos (by simp [hname])]
      have : t.filter (fun u => u.name == name) = [] := by
        rw [List.filter_eq_nil_iff]
        intro b hb
        have hne := ha b hb
        intro habs
        exact absurd (by rw [hname]; exact (eq_of_beq habs).symm : s.name = b.name) hne
      rw [this]
    · have hne : a.name ≠ name := fun habs => (ha s hs) (habs.trans hname.symm)
      rw [List.filter_cons_of_neg (by simp [hne])]
      exact ih ht hs

/-- C2: starting a session is idempotent on every reachable store.  When the
first call succeeds with identifier `id`, a repeated call with the same name
returns the same identifier and the same store (no duplicate); the name is
carried by exactly one session row, and a genuinely new name appends exactly
one fresh row. -/
theorem start_new_session_idempotent (st : DBState) (h : reachable st)
    (name : String) (id : Nat) (st₁ : DBState)
    (h1 : ChatService.start_new_session name st = Except.ok (id, st₁)) :
    ChatService.start_new_session name st₁ = Except.ok (id, st₁) ∧
    (st₁.sessions.filter (fun s => s.name == name)).length = 1 ∧
    Database.get_session name st₁ = some id ∧
    (Database.get_session name st = none →
      st₁.sessions = st.sessions ++ [{ id := id, name := name }]) := by
  have hwf := reachable_wf st h
  unfold ChatService.start_new_session at h1
  cases hg : Database.get_session name st with
  | some sid =>
    rw [hg] at h1
    obtain ⟨s, hsmem, hsid, hsname⟩ := get_session_some_mem name st sid hg
    have hpos : 1 ≤ sid := hsid ▸ hwf.sess_pos s hsmem
    have h0 : (sid == 0) = false := by
      simp only [beq_eq_false_iff_ne, ne_eq]
      omega
    simp only [h0, Bool.false_eq_true, if_false, Except.ok.injEq,
      Prod.mk.injEq] at h1
    obtain ⟨hid, hst⟩ := h1
    subst hid
    subst hst
    refine ⟨?_, ?_, ?_, ?_⟩
    · unfold ChatService.start_new_session
      rw [hg]
      simp [h0]
    · rw [filter_name_singleton name st.sessions hwf.names_distinct s hsmem hsname]
      rfl
    · exact hg
    · intro habs
      cases habs
  | none =>
    rw [hg] at h1
    have hnomatch := get_session_none_no_match name st hg
    have hany : (st.sessions.any (fun s => s.name == name)) = false := by
      rw [List.any_eq_false]
      intro s hs
      simp [hnomatch s hs]
    unfold Database.create_session at h1
    simp only [hany, Bool.false_eq_true, if_false, Except.ok.injEq,
      Prod.mk.injEq] at h1
    obtain ⟨hid, hst⟩ := h1
    have hfind : st.sessions.find? (fun s => s.name == name) = none := by
      rw [List.find?_eq_none]
      intro s hs
      simp [hnomatch s hs]
    have hg1 : Database.get_session name st₁ = some id := by
      unfold Database.get_session
      rw [← hst]
      simp only
      rw [find?_append_of_none _ _ _ hfind]
      simp [List.find?_cons, hid]
    have hidpos : 1 ≤ id := hid ▸ hwf.next_pos
    refine ⟨?_, ?_, hg1, ?_⟩
    · unfold ChatService.start_new_session
      rw [hg1]
      have h0 : (id == 0) = false := by
        simp only [beq_eq_false_iff_ne, ne_eq]
        omega
      simp [h0]
    · rw [← hst]
      simp only [List.filter_append]
      rw [List.filter_eq_nil_iff.mpr (fun s hs => by simp [hnomatch s hs])]
      simp [hid]
    · intro _
      rw [← hst, hid]

theorem start_new_session_idempotent_witness :
    reachable initState ∧
    (ChatService.start_new_session "default" initState =
        Except.ok (1, { sessions := [{ id := 1, name := "default" }],
                        memory := [], permanent_note := none,
                        next_session_id := 2, next_memory_id := 1 }) ∧
      ChatService.start_new_session "default"
          { sessions := [{ id := 1, name := "default" }], memory := [],
            permanent_note := none, next_session_id := 2, next_memory_id := 1 } =
        Except.ok (1, { sessions := [{ id := 1, name := "default" }],
                        memory := [], permanent_note := none,
                        next_session_id := 2, next_memory_id := 1 })) :=
  ⟨⟨[], rfl⟩, rfl,
    (start_new_session_idempotent initState ⟨[], rfl⟩ "default" 1 _ rfl).1⟩

theorem foldl_two_frag_length (l : List (String × String)) (acc : List String) :
    (l.foldl (fun texts p =>
        texts ++ ["User asked: " ++ p.1, "AI answered: " ++ p.2]) acc).length =
      acc.length + 2 * l.length := by
  induction l generalizing acc with
  | nil => simp
  | cons p t ih =>
    show (t.foldl _ (acc ++ [_, _])).length = _
    rw [ih]
    simp [List.length_append]
    omega

theorem get_memory_length (session_id limit : Nat) (st : DBState) (h : st.WF) :
    (Database.get_memory session_id limit st).length =
      min limit (st.memory.filter (fun r => r.session_id == session_id)).length := by
  rw [get_memory_eq_window session_id limit st h]
  simp [List.length_take]

/-- C5 amended: initializing the semantic session memory converts the most
recent (at most) 100 turns of the active session — not the whole history —
into two text fragments per turn, in chronological order. -/
theorem init_session_memory_window (st : DBState) (h : reachable st)
    (session_id : Nat) :
    ChatManager.initialize_session_memory session_id st =
      (((st.memory.filter (fun r => r.session_id == session_id)).reverse.take
          100).reverse).foldl
        (fun texts r =>
          texts ++ ["User asked: " ++ r.user_input,
                    "AI answered: " ++ r.model_response]) [] ∧
    (ChatManager.initialize_session_memory session_id st).length =
      2 * min 100 (st.memory.filter (fun r => r.session_id == session_id)).length := by
  have hwf := reachable_wf st h
  constructor
  · unfold ChatManager.initialize_session_memory
    rw [get_memory_eq_window session_id 100 st hwf, List.foldl_map]
  · unfold ChatManager.initialize_session_memory
    rw [foldl_two_frag_length, get_memory_length session_id 100 st hwf]
    simp

/-- One session followed by 101 recorded turns. -/
def c5Ops : List DBOp :=
  DBOp.createSession "default" :: List.replicate 101 (DBOp.addMessage 1 "u" "r")

/-- Store with a 101-turn session history. -/
def c5State : DBState := applyOps c5Ops initState

set_option maxRecDepth 10000 in
/-- C5 counterexample: with 101 prior turns in the session,
`initialize_session_memory` produces 200 fragments, not the 202 the claim
requires — only the most recent 100 turns are converted, because the history
is fetched with `limit=100` (chat_manager.py:41). -/
theorem init_session_memory_cap_cex :
    (c5State.memory.filter (fun r => r.session_id == 1)).length = 101 ∧
    (ChatManager.initialize_session_memory 1 c5State).length = 200 := by
  have hwf : c5State.WF := reachable_wf c5State ⟨c5Ops, rfl⟩
  have hlen : (c5State.memory.filter (fun r => r.session_id == 1)).length = 101 := by
    decide
  refine ⟨hlen, ?_⟩
  unfold ChatManager.initialize_session_memory
  rw [foldl_two_frag_length, get_memory_length 1 100 c5State hwf, hlen]
  decide

/-- Two recorded turns for the windowed-initialization witness. -/
def c5SmallOps : List DBOp :=
  [DBOp.createSession "default", DBOp.addMessage 1 "q1" "r1",
   DBOp.addMessage 1 "q2" "r2"]

theorem init_session_memory_window_witness :
    reachable (applyOps c5SmallOps initState) ∧
    (ChatManager.initialize_session_memory 1 (applyOps c5SmallOps initState) =
        ((((applyOps c5SmallOps initState).memory.filter
              (fun r => r.session_id == 1)).reverse.take 100).reverse).foldl
          (fun texts r =>
            texts ++ ["User asked: " ++ r.user_input,
                      "AI answered: " ++ r.model_response]) [] ∧
      (ChatManager.initialize_session_memory 1 (applyOps c5SmallOps initState)).length =
        2 * min 100 ((applyOps c5SmallOps initState).memory.filter
            (fun r => r.session_id == 1)).length) :=
  ⟨⟨c5SmallOps, rfl⟩,
    init_session_memory_window _ ⟨c5SmallOps, rfl⟩ 1⟩

/-- C6: a nonempty parse result carries a classification field that is one
of exactly the four category strings, and any decoded object whose
classification field is missing or holds any other value parses to the
empty dict. -/
theorem classification_restricted (decoded : Except Unit Json) :
    (Classifier.parse_ai_response decoded ≠ [] →
      ∃ s, Classifier.classificationField (Classifier.parse_ai_response decoded) =
          some s ∧
        s ∈ ["general", "practical", "theoretical", "irrelevant"]) ∧
    (∀ fields : List (String × Json),
      (∀ s, Classifier.classificationField fields = some s →
        s ∉ ["general", "practical", "theoretical", "irrelevant"]) →
      Classifier.parse_ai_response (Except.ok (Json.obj fields)) = []) := by
  have hobj : ∀ fields : List (String × Json),
      Classifier.parse_ai_response (Except.ok (Json.obj fields)) =
        match Classifier.lookupLast fields "classification" with
        | some (Json.str s) =>
          if Classifier.valid_categories.contains s then fields else []
        | _ => [] := fun _ => rfl
  constructor
  · intro hne
    cases decoded with
    | error e => exact absurd rfl hne
    | ok j =>
      cases j with
      | obj fields =>
        rw [hobj fields] at hne ⊢
        cases hc : Classifier.lookupLast fields "classification" with
        | none => rw [hc] at hne; exact absurd rfl hne
        | some v =>
          cases v with
          | str s =>
            rw [hc] at hne
            have hne2 : (if Classifier.valid_categories.contains s = true then
                fields else ([] : List (String × Json))) ≠ [] := hne
            show ∃ t, Classifier.classificationField
                (if Classifier.valid_categories.contains s = true then fields
                  else []) = some t ∧
              t ∈ ["general", "practical", "theoretical", "irrelevant"]
            by_cases hmem : Classifier.valid_categories.contains s = true
            · rw [if_pos hmem] at hne2 ⊢
              refine ⟨s, ?_, ?_⟩
              · unfold Classifier.classificationField
                rw [hc]
              · simpa [Classifier.valid_categories] using hmem
            · rw [if_neg hmem] at hne2
              exact absurd rfl hne2
          | null => rw [hc] at hne; exact absurd rfl hne
          | bool b => rw [hc] at hne; exact absurd rfl hne
          | num n => rw [hc] at hne; exact absurd rfl hne
          | arr elems => rw [hc] at hne; exact absurd rfl hne
          | obj o => rw [hc] at hne; exact absurd rfl hne
      | null => exact absurd rfl hne
      | bool b => exact absurd rfl hne
      | num n => exact absurd rfl hne
      | str s => exact absurd rfl hne
      | arr elems => exact absurd rfl hne
  · intro fields hout
    rw [hobj fields]
    cases hc : Classifier.lookupLast fields "classification" with
    | none => rfl
    | some v =>
      cases v with
      | str s =>
        have hs : Classifier.classificationField fields = some s := by
          unfold Classifier.classificationField
          rw [hc]
        have hnot := hout s hs
        have hcontains : Classifier.valid_categories.contains s = false := by
          simpa [Classifier.valid_categories] using hnot
        simp only [hcontains, Bool.false_eq_true, if_false]
      | null => rfl
      | bool b => rfl
      | num n => rfl
      | arr elems => rfl
      | obj o => rfl

theorem classification_restricted_witness :
    ((∀ s, Classifier.classificationField
        [("classification", Json.str "banana")] = some s →
      s ∉ ["general", "practical", "theoretical", "irrelevant"]) ∧
      Classifier.parse_ai_response
        (Except.ok (Json.obj [("classification", Json.str "banana")])) = []) ∧
    (Classifier.parse_ai_response
        (Except.ok (Json.obj [("classification", Json.str "practical")])) ≠ [] ∧
      ∃ s, Classifier.classificationField
          (Classifier.parse_ai_response
            (Except.ok (Json.obj [("classification", Json.str "practical")]))) =
          some s ∧
        s ∈ ["general", "practical", "theoretical", "irrelevant"]) := by
  have hbanana : ∀ s, Classifier.classificationField
      [("classification", Json.str "banana")] = some s →
      s ∉ ["general", "practical", "theoretical", "irrelevant"] := by
    intro s hs
    have heval : Classifier.classificationField
        [("classification", Json.str "banana")] = some "banana" := rfl
    rw [heval] at hs
    cases hs
    decide
  have hpractical : Classifier.parse_ai_response
      (Except.ok (Json.obj [("classification", Json.str "practical")])) ≠ [] := by
    have heval : Classifier.parse_ai_response
        (Except.ok (Json.obj [("classification", Json.str "practical")])) =
        [("classification", Json.str "practical")] := rfl
    rw [heval]
    intro habs
    cases habs
  exact ⟨⟨hbanana,
      (classification_restricted
        (Except.ok (Json.obj [("classification", Json.str "banana")]))).2 _ hbanana⟩,
    hpractical,
    (classification_restricted
      (Except.ok (Json.obj [("classification", Json.str "practical")]))).1 hpractical⟩

/-- C7 counterexample: when the external classification call raises,
`Classifier.classify` does return the empty dict, but
`ChatService._classify_query` then returns that empty dict unchanged — not
the `general` default dict the claim names (its own fallback fires only if
`classify` itself raises, which a failing external call never causes). -/
theorem classify_failure_default_cex :
    Classifier.classify (Except.error ()) = [] ∧
    ChatService.classify_query (Except.error ()) ≠
      ChatService.default_classification :=
  ⟨rfl, fun habs => nomatch habs⟩

/-- C7 amended: external-call failures never propagate and degrade to safe
defaults: a raising classification call makes `classify` — and therefore
`_classify_query`, which forwards its result unchanged — return the empty
dict, from which `_select_system_prompt` falls back to the `general` prompt;
a raising language-detection call yields "other". -/
theorem external_failures_degrade (e le : Unit)
    (invokeResult : Except Unit (Except Unit Json)) :
    Classifier.classify (Except.error e) = [] ∧
    ChatService.classify_query invokeResult = Classifier.classify invokeResult ∧
    ChatService.classify_query (Except.error e) = [] ∧
    ChatService.select_system_prompt_key
        (ChatService.classify_query (Except.error e)) =
      "general_chitchat_prompt" ∧
    ChatManager.detect_language (Except.error le) = "other" :=
  ⟨rfl, rfl, rfl, rfl, rfl⟩

/-- C8: storage failures are re-raised by the database layer and caught by
every CLI handler, which reports them and returns True; `process_command`
returns False exactly when the dispatched command is `/quit`, so the
interactive loop survives every storage failure. -/
theorem storage_errors_reported_loop_continues (input : String)
    (startR : Except String Nat) (clearR : Except String Unit)
    (aiR : Except String String) (e : String) :
    (SulphiteApp.process_command input startR clearR aiR = false ↔
      (input.startsWith "/" = true ∧
        ((SulphiteApp.pySplit input).headD "").toLower = "/quit")) ∧
    Database.add_message_result (Except.error e) = Except.error e ∧
    (SulphiteApp.handle_clear_command (Except.error e)).1 = true ∧
    (SulphiteApp.handle_clear_command (Except.error e)).2 =
      "Failed to clear session memory: " ++ e ∧
    (SulphiteApp.handle_new_session_command (Except.error e)).1 = true ∧
    (SulphiteApp.process_ai_interaction (Except.error e)).1 = true := by
  refine ⟨?_, rfl, rfl, rfl, rfl, rfl⟩
  unfold SulphiteApp.process_command
  have hai : (SulphiteApp.process_ai_interaction aiR).1 = true := by
    cases aiR <;> rfl
  have hnew : (SulphiteApp.handle_new_session_command startR).1 = true := rfl
  have hclear : (SulphiteApp.handle_clear_command clearR).1 = true := rfl
  by_cases hs : input.startsWith "/" = true
  · rw [if_pos hs]
    by_cases hq : ((SulphiteApp.pySplit input).headD "").toLower = "/quit"
    · rw [if_pos hq]
      exact ⟨fun _ => ⟨hs, hq⟩, fun _ => rfl⟩
    · rw [if_neg hq]
      simp only [hai, hnew, hclear, ite_self]
      exact ⟨(fun habs => nomatch habs), fun h => absurd h.2 hq⟩
  · rw [if_neg hs]
    rw [hai]
    exact ⟨(fun habs => nomatch habs), fun h => absurd h.1 hs⟩

theorem create_session_ok (name : String) (st : DBState) (hwf : st.WF)
    (id : Nat) (st' : DBState)
    (h : Database.create_session name st = Except.ok (id, st')) :
    st'.WF ∧ st'.memory = st.memory ∧
    (∀ s ∈ st.sessions, s ∈ st'.sessions) ∧ (∃ s ∈ st'.sessions, s.id = id) := by
  have hindep := wf_applyOp (DBOp.createSession name) st hwf
  unfold Database.create_session at h
  by_cases hany : (st.sessions.any (fun s => s.name == name)) = true
  · rw [if_pos hany] at h; cases h
  · rw [if_neg hany] at h
    simp only [Except.ok.injEq, Prod.mk.injEq] at h
    obtain ⟨hid, hst⟩ := h
    have hcreate : Database.create_session name st =
        Except.ok (st.next_session_id,
          { st with
              sessions := st.sessions ++
                [{ id := st.next_session_id, name := name }],
              next_session_id := st.next_session_id + 1 }) := by
      unfold Database.create_session
      rw [if_neg hany]
    have happ : applyOp (DBOp.createSession name) st = st' := by
      show (match Database.create_session name st with
        | Except.ok (_, st2) => st2
        | Except.error _ => st) = st'
      rw [hcreate]
      exact hst
    rw [happ] at hindep
    refine ⟨hindep, ?_, ?_, ?_⟩
    · rw [← hst]
    · intro s hs
      rw [← hst]
      exact List.mem_append_left _ hs
    · refine ⟨{ id := st.next_session_id, name := name }, ?_, hid⟩
      rw [← hst]
      exact List.mem_append_right _ (List.mem_singleton_self _)

theorem start_new_session_ok (name : String) (st : DBState) (hwf : st.WF)
    (id : Nat) (st' : DBState)
    (h : ChatService.start_new_session name st = Except.ok (id, st')) :
    st'.WF ∧ st'.memory = st.memory ∧
    (∀ s ∈ st.sessions, s ∈ st'.sessions) ∧ (∃ s ∈ st'.sessions, s.id = id) := by
  unfold ChatService.start_new_session at h
  cases hg : Database.get_session name st with
  | some sid =>
    rw [hg] at h
    by_cases h0 : (sid == 0) = true
    · simp only [h0, if_true] at h
      exact create_session_ok name st hwf id st' h
    · simp only [h0, Bool.false_eq_true, if_false, Except.ok.injEq,
        Prod.mk.injEq] at h
      obtain ⟨hid, hst⟩ := h
      subst hst
      subst hid
      obtain ⟨s, hsmem, hsid, _⟩ := get_session_some_mem name st sid hg
      exact ⟨hwf, rfl, fun s hs => hs, ⟨s, hsmem, hsid⟩⟩
  | none =>
    rw [hg] at h
    exact create_session_ok name st hwf id st' h

/-- What the running application maintains: a well-formed store, an active
session id that names an existing session, and the referential invariant on
turns. -/
def appInv (a : AppState) : Prop :=
  a.db.WF ∧
  (∀ sid, a.session_id = some sid → ∃ s ∈ a.db.sessions, s.id = sid) ∧
  memRefsOk a.db

theorem appInv_init : appInv initApp := by
  refine ⟨initState_wf, ?_, ?_⟩
  · intro sid h
    cases h
  · intro r h
    cases h

theorem appInv_applyAppOp (a : AppState) (op : AppOp) (h : appInv a) :
    appInv (applyAppOp a op) := by
  obtain ⟨hwf, hsid, hrefs⟩ := h
  cases op with
  | newSession name =>
    show appInv (match ChatService.start_new_session name a.db with
      | Except.ok (sid, db') => { db := db', session_id := some sid }
      | Except.error _ => a)
    cases hr : ChatService.start_new_session name a.db with
    | error e => exact ⟨hwf, hsid, hrefs⟩
    | ok p =>
      obtain ⟨id, db'⟩ := p
      obtain ⟨hwf', hmem, hsub, hidmem⟩ :=
        start_new_session_ok name a.db hwf id db' hr
      refine ⟨hwf', ?_, ?_⟩
      · intro sid hs
        have hs2 : some id = some sid := hs
        simp only [Option.some.injEq] at hs2
        obtain ⟨s, hsmem, hsid'⟩ := hidmem
        exact ⟨s, hsmem, by rw [hsid', hs2]⟩
      · intro r hr2
        have hr3 : r ∈ db'.memory := hr2
        rw [hmem] at hr3
        obtain ⟨s, hsmem, hseq⟩ := hrefs r hr3
        exact ⟨s, hsub s hsmem, hseq⟩
  | chat u r =>
    show appInv (match a.session_id with
      | none => a
      | some sid => { a with db := Database.add_message sid u r a.db })
    cases hsome : a.session_id with
    | none => exact ⟨hwf, hsid, hrefs⟩
    | some sid =>
      refine ⟨wf_applyOp (DBOp.addMessage sid u r) a.db hwf, ?_, ?_⟩
      · intro sid2 hs2
        have hs3 : some sid = some sid2 := hs2
        simp only [Option.some.injEq] at hs3
        subst hs3
        exact hsid sid hsome
      · intro r2 hr2
        have hr3 : r2 ∈ a.db.memory ++
            [{ id := a.db.next_memory_id, session_id := sid,
               user_input := u, model_response := r }] := hr2
        rcases List.mem_append.mp hr3 with hold | hnew2
        · exact hrefs r2 hold
        · simp only [List.mem_singleton] at hnew2
          subst hnew2
          exact hsid sid hsome
  | clearMem =>
    show appInv (match a.session_id with
      | none => a
      | some sid => { a with db := Database.clear_memory sid a.db })
    cases hsome : a.session_id with
    | none => exact ⟨hwf, hsid, hrefs⟩
    | some sid =>
      refine ⟨wf_applyOp (DBOp.clearMemory sid) a.db hwf, ?_, ?_⟩
      · intro sid2 hs2
        have hs3 : some sid = some sid2 := hs2
        simp only [Option.some.injEq] at hs3
        subst hs3
        exact hsid sid hsome
      · intro r2 hr2
        exact hrefs r2 (List.mem_of_mem_filter hr2)

theorem appInv_applyAppOps (ops : List AppOp) (a : AppState) (h : appInv a) :
    appInv (applyAppOps ops a) := by
  induction ops generalizing a with
  | nil => exact h
  | cons op ops ih => exact ih (applyAppOp a op) (appInv_applyAppOp a op h)

instance instDecidableMemRefsOk (st : DBState) : Decidable (memRefsOk st) :=
  inferInstanceAs
    (Decidable (∀ r ∈ st.memory, ∃ s ∈ st.sessions, s.id = r.session_id))

/-- C9 amended: in every application-reachable state all stored turns
reference an existing session — maintained by the callers (the active
session id always comes from `get_session`/`create_session` and the CLI
never deletes sessions), not by `add_message`, which inserts
unconditionally; `delete_session` also preserves the invariant by removing
a session's turns together with its row. -/
theorem turns_reference_existing_session :
    (∀ a : AppState, appReachable a → memRefsOk a.db) ∧
    (∀ (sid : Nat) (st : DBState), memRefsOk st →
      memRefsOk (Database.delete_session sid st)) := by
  constructor
  · intro a ha
    obtain ⟨ops, hops⟩ := ha
    have hinv := appInv_applyAppOps ops initApp appInv_init
    rw [hops] at hinv
    exact hinv.2.2
  · intro sid st h r hr
    have hr2 : r ∈ st.memory := List.mem_of_mem_filter hr
    have hfilter : (r.session_id == sid) = false := by
      have := List.of_mem_filter hr
      simpa using this
    obtain ⟨s, hsmem, hseq⟩ := h r hr2
    refine ⟨s, ?_, hseq⟩
    apply List.mem_filter.mpr
    refine ⟨hsmem, ?_⟩
    rw [Bool.not_eq_true']
    rw [hseq]
    exact hfilter

/-- Store holding one session. -/
def c9Base : DBState := applyOps [DBOp.createSession "default"] initState

/-- C9 counterexample: `add_message` with the absent session identifier 2
succeeds and records an orphan turn, breaking the invariant — the insert is
unconditional (foreign keys are declared but never enabled), so the claim's
"records a turn only when the session row is present" fails. -/
theorem add_message_orphan_cex :
    memRefsOk c9Base ∧
    ¬ memRefsOk (Database.add_message 2 "hello" "hi" c9Base) := by
  constructor
  · decide
  · decide

/-- CLI command sequence for the invariant witness. -/
def c9AppOps : List AppOp :=
  [AppOp.newSession "default", AppOp.chat "q" "r", AppOp.clearMem,
   AppOp.chat "q2" "r2"]

theorem turns_reference_existing_session_witness :
    appReachable (applyAppOps c9AppOps initApp) ∧
    memRefsOk (applyAppOps c9AppOps initApp).db ∧
    memRefsOk c3State ∧
    memRefsOk (Database.delete_session 1 c3State) :=
  ⟨⟨c9AppOps, rfl⟩,
    turns_reference_existing_session.1 _ ⟨c9AppOps, rfl⟩,
    by decide,
    turns_reference_existing_session.2 1 c3State (by decide)⟩

/-- C10: the query-type gate.  With no stored turns for the session, or when
the most recently inserted turn's assistant response contains no question
mark, `_get_query_type` answers "new_question" without consulting the model;
the model is invoked (flag `true`) exactly when the last response contains
a question mark. -/
theorem query_type_gate (st : DBState) (h : reachable st) (session_id : Nat)
    (invokeContent : String) :
    (st.memory.filter (fun r => r.session_id == session_id) = [] →
      ChatManager.get_query_type session_id invokeContent st =
        ("new_question", false)) ∧
    (∀ last,
      (st.memory.filter (fun r => r.session_id == session_id)).getLast? =
        some last →
      (last.model_response.data.contains '?' = false →
        ChatManager.get_query_type session_id invokeContent st =
          ("new_question", false)) ∧
      (last.model_response.data.contains '?' = true →
        ChatManager.get_query_type session_id invokeContent st =
          (invokeContent.trim.toLower, true))) := by
  have hwf := reachable_wf st h
  have hmem1 := get_memory_eq_window session_id 1 st hwf
  cases hrev : (st.memory.filter (fun r => r.session_id == session_id)).reverse with
  | nil =>
    constructor
    · intro _
      unfold ChatManager.get_query_type
      rw [hmem1, hrev]
      rfl
    · intro last hlast
      rw [← List.head?_reverse, hrev] at hlast
      cases hlast
  | cons a t =>
    have hgm : Database.get_memory session_id 1 st =
        [(a.user_input, a.model_response)] := by
      rw [hmem1, hrev]
      rfl
    have hlasta : (st.memory.filter
        (fun r => r.session_id == session_id)).getLast? = some a := by
      rw [← List.head?_reverse, hrev]
      rfl
    constructor
    · intro hnil2
      rw [hnil2] at hrev
      cases hrev
    · intro last hlast2
      rw [hlasta] at hlast2
      simp only [Option.some.injEq] at hlast2
      subst hlast2
      constructor
      · intro hq
        unfold ChatManager.get_query_type
        rw [hgm]
        show (if a.model_response.data.contains '?' = true then
            (invokeContent.trim.toLower, true)
          else ("new_question", false)) = ("new_question", false)
        simp only [hq, Bool.false_eq_true, if_false]
      · intro hq
        unfold ChatManager.get_query_type
        rw [hgm]
        show (if a.model_response.data.contains '?' = true then
            (invokeContent.trim.toLower, true)
          else ("new_question", false)) = (invokeContent.trim.toLower, true)
        simp only [hq, if_true]

/-- Operation sequence for the query-type witness: the last assistant
response asks a question. -/
def c10Ops : List DBOp :=
  [DBOp.createSession "default", DBOp.addMessage 1 "q0" "plain answer",
   DBOp.addMessage 1 "q1" "Are you sure?"]

theorem query_type_gate_witness :
    reachable (applyOps c10Ops initState) ∧
    ((applyOps c10Ops initState).memory.filter
        (fun r => r.session_id == 1)).getLast? =
      some { id := 2, session_id := 1, user_input := "q1",
             model_response := "Are you sure?" } ∧
    "Are you sure?".data.contains '?' = true ∧
    ChatManager.get_query_type 1 "FOLLOW_UP" (applyOps c10Ops initState) =
      ("FOLLOW_UP".trim.toLower, true) :=
  ⟨⟨c10Ops, rfl⟩, by decide,
    by decide,
    ((query_type_gate (applyOps c10Ops initState) ⟨c10Ops, rfl⟩ 1
        "FOLLOW_UP").2
      { id := 2, session_id := 1, user_input := "q1",
        model_response := "Are you sure?" } (by decide)).2 (by decide)⟩
